import Mathlib

/-!
Shallow embedding of the `pascal_io` runtime-support library (`src/lib.rs`).

Modelling conventions:
* The Rust trait `PascalFile` bundles the per-unit-type capability (static
  methods) and the handle accessors.  The capability part is embedded as the
  structure `PascalFile` below; the handle part (one `FileState` plus the
  `error_state` code) is the structure `Handle`.
* A line-oriented readable source (`Box<dyn ReadLine>`) is a `List String` of
  the successive results of `read_line`; once the list is empty every further
  `read_line` yields the empty string (end of stream).  A byte-oriented source
  (`Box<dyn Read>`) is a `List Nat` of the remaining bytes; a `read` call into
  a free region of size `k` yields `min k remaining` bytes (the behaviour of
  an in-memory cursor).  A sink (`Box<dyn Write>`) is the `List Nat` of bytes
  written so far.
* `core::mem::size_of::<T>()` is the capability field `size_of_t`.
* A Rust panic (`panic!`, `unreachable!`, `expect` on a buffer-variable take,
  out-of-bounds indexing/slicing) is `none`; a normal return is `some`.
  In-memory reads themselves never fail, so the `expect("read line failure")`
  and `expect("read block failure")` paths cannot fire in the model.
-/

namespace Pascal

/-- Embeds the capability part of the Rust trait `PascalFile` (its associated
functions), for unit type `T`.  Error codes are `usize`, embedded as `Nat`. -/
structure PascalFile (T : Type) where
  is_text_file : Bool
  is_eoln_unit : T → Bool
  eoln_unit : T
  size_of_t : Nat
  open_text_file_for_read : String → Except Nat (List String × Bool)
  open_binary_file_for_read : String → Except Nat (List Nat)
  open_file_for_write : String → Except Nat Unit
  convert_line_string_crlf_to_lf : String → String
  convert_line_string_to_units : String → List T
  convert_blob_to_unit : List Nat → T
  convert_unit_to_blob : T → List Nat

/-- Embeds the Rust enum `LineBufferState<T>`. -/
inductive LineBufferState (T : Type) where
  | unknownState (initial_line : Bool)
  | afterReadLine (line_buffer : List T) (line_position : Nat) (line_no_more : Bool)
  | eofState
deriving DecidableEq

/-- Embeds the Rust enum `BlockBufferState<T>`.  The boxed byte slice is a
`List Nat` of fixed length together with the available-length and position
counters and the optional cached decoded unit. -/
inductive BlockBufferState (T : Type) where
  | unknownState
  | afterReadBlock (bytes_block_buffer : List Nat) (bytes_avail_length : Nat)
      (bytes_position : Nat) (bytes_buffer : Option T)
  | eofState
deriving DecidableEq

/-- Embeds the Rust enum `FileState<T>`; each reading variant carries its
owned I/O target. -/
inductive FileState (T : Type) where
  | undefined
  | generationMode (write_buffer : Option T) (write_target : List Nat)
  | lineInspectionMode (read_line_buffer : LineBufferState T)
      (read_target : List String) (read_flag_extra_eoln_line : Bool)
  | blockInspectionMode (read_block_buffer : BlockBufferState T)
      (read_target : List Nat)
deriving DecidableEq

/-- Embeds a value implementing the Rust trait `PascalFile`: the file state
plus the last-error code (`error_state` / `set_error_state`). -/
structure Handle (T : Type) where
  file_state : FileState T
  error_state : Nat
deriving DecidableEq

/-- The constant `IDEAL_BUFSIZE` of `FileState::refill`. -/
def IDEAL_BUFSIZE : Nat := 512

/-- The byte-window capacity computed on the first block refill:
`((IDEAL_BUFSIZE / size_of_t) + 1) * size_of_t`. -/
def destSize (size_of_t : Nat) : Nat :=
  (IDEAL_BUFSIZE / size_of_t + 1) * size_of_t

/-- Writing `data` into the byte window at offset `off`
(the in-place update performed by `read` into `buf[off..]`). -/
def writeBytesAt (buf : List Nat) (off : Nat) (data : List Nat) : List Nat :=
  buf.take off ++ data ++ buf.drop (off + data.length)

/-- Result of the block-refill read loop: either a zero-byte read happened
(end of stream) or the window now holds at least one unit. -/
inductive FillResult where
  | eofReached (rest : List Nat)
  | filled (buf : List Nat) (avail : Nat) (rest : List Nat)
deriving DecidableEq

/-- The `while *bytes_avail_length < size_of_t` read loop of
`FileState::refill` (block branch), written with a structural fuel so that it
reduces in the kernel: read into `buf[avail..]` until at least one unit is
available; a zero-byte read reports end of stream.  Every successful read
consumes at least one byte of `src`, so `src.length + 1` iterations always
suffice and the out-of-fuel branch is unreachable from `fillBlock`. -/
def fillBlockGo (s : Nat) : Nat → List Nat → Nat → List Nat → FillResult
  | 0, _, _, src => .eofReached src
  | fuel + 1, buf, avail, src =>
    if avail < s then
      let n := min (buf.length - avail) src.length
      if n = 0 then
        .eofReached src
      else
        fillBlockGo s fuel (writeBytesAt buf avail (src.take n)) (avail + n)
          (src.drop n)
    else
      .filled buf avail src

/-- The read loop of the block branch of `FileState::refill`. -/
def fillBlock (s : Nat) (buf : List Nat) (avail : Nat) (src : List Nat) :
    FillResult :=
  fillBlockGo s (src.length + 1) buf avail src

/-- The compaction step of the block branch of `FileState::refill`: the
leftover bytes `[pos + s .. avail)` (the range `remaining_range`) are slid to
the front of the window (`copy_within`), and the new available length is the
length of that range (or the old one when the range starts at offset `0`,
which cannot happen for a positive unit size). -/
def blockCompact (s : Nat) (buf : List Nat) (avail pos : Nat) :
    List Nat × Nat :=
  let bytes_position_end := pos + s
  if 0 < bytes_position_end then
    if bytes_position_end < avail then
      (((buf.drop bytes_position_end).take (avail - bytes_position_end)) ++
          buf.drop (avail - bytes_position_end),
        avail - bytes_position_end)
    else
      (buf, 0)
  else
    (buf, avail)

/-- The compaction-plus-read part of the block branch of `FileState::refill`,
run on an `AfterReadBlock` window (freshly materialized or not): slide the
leftover bytes to the front, reset position and cache, then run the read
loop. -/
def blockRefillCore (s : Nat) (buf : List Nat) (avail pos : Nat)
    (src : List Nat) : FileState T :=
  match fillBlock s (blockCompact s buf avail pos).1
      (blockCompact s buf avail pos).2 src with
  | .eofReached rest => .blockInspectionMode .eofState rest
  | .filled buf2 avail2 rest =>
      .blockInspectionMode (.afterReadBlock buf2 avail2 0 none) rest

/-- Embeds `FileState::refill`.  `none` is a panic (`unreachable!`, the
`panic!("file not in inspection mode!")` arm, or the zero-sized-unit
assertion). -/
def refill (cap : PascalFile T) : FileState T → Option (FileState T)
  | .lineInspectionMode (.unknownState initial_line) read_target flag =>
      let buf := (read_target.head?).getD ""
      let rest := read_target.tail
      if initial_line && buf.isEmpty then
        some (.lineInspectionMode .eofState rest flag)
      else
        let buf2 := cap.convert_line_string_crlf_to_lf buf
        let line_chars := cap.convert_line_string_to_units buf2
        let no_more :=
          match line_chars.getLast? with
          | some c => !cap.is_eoln_unit c
          | none => true
        let line_chars2 :=
          if no_more then line_chars ++ [cap.eoln_unit] else line_chars
        some (.lineInspectionMode
          (.afterReadLine line_chars2 0 no_more) rest flag)
  | .lineInspectionMode (.afterReadLine _ _ _) _ _ => none
  | .lineInspectionMode .eofState _ _ => none
  | .blockInspectionMode .unknownState src =>
      if cap.size_of_t = 0 then none
      else
        some (blockRefillCore cap.size_of_t
          (List.replicate (destSize cap.size_of_t) 0)
          (destSize cap.size_of_t)
          (destSize cap.size_of_t - cap.size_of_t) src)
  | .blockInspectionMode (.afterReadBlock buf avail pos _) src =>
      if cap.size_of_t = 0 then none
      else some (blockRefillCore cap.size_of_t buf avail pos src)
  | .blockInspectionMode .eofState _ => none
  | .undefined => none
  | .generationMode _ _ => none

/-- Embeds the Rust `reset`: dispatch on `is_text_file`, seed the matching
inspection mode on success (interactive sources are seeded directly into a
loaded synthetic end-of-line line), record the error code on failure. -/
def reset (cap : PascalFile T) (path : String) (_file : Handle T) : Handle T :=
  if cap.is_text_file then
    match cap.open_text_file_for_read path with
    | .ok (read_target, is_terminal) =>
        if is_terminal then
          ⟨.lineInspectionMode
              (.afterReadLine [cap.eoln_unit] 0 false) read_target true, 0⟩
        else
          ⟨.lineInspectionMode (.unknownState true) read_target false, 0⟩
    | .error e => ⟨.undefined, e⟩
  else
    match cap.open_binary_file_for_read path with
    | .ok read_target => ⟨.blockInspectionMode .unknownState read_target, 0⟩
    | .error e => ⟨.undefined, e⟩

/-- Embeds the Rust `rewrite`: open for write, fresh sink, no staged unit. -/
def rewrite (cap : PascalFile T) (path : String) (_file : Handle T) :
    Handle T :=
  match cap.open_file_for_write path with
  | .ok _ => ⟨.generationMode none [], 0⟩
  | .error e => ⟨.undefined, e⟩

/-- Embeds the Rust `buffer_variable_assign`: stage a unit for writing. -/
def buffer_variable_assign (_cap : PascalFile T) (value : T) :
    FileState T → Option (FileState T)
  | .generationMode _ write_target =>
      some (.generationMode (some value) write_target)
  | .undefined => none
  | .lineInspectionMode _ _ _ => none
  | .blockInspectionMode _ _ => none

/-- Embeds the Rust `put`: take the staged unit (fatal when absent), convert
it to bytes and append them to the sink. -/
def put (cap : PascalFile T) : FileState T → Option (FileState T)
  | .generationMode (some v) write_target =>
      some (.generationMode none (write_target ++ cap.convert_unit_to_blob v))
  | .generationMode none _ => none
  | .undefined => none
  | .lineInspectionMode _ _ _ => none
  | .blockInspectionMode _ _ => none

/-- Embeds the Rust `get` (advance).  In an unknown buffer state `get` only
performs the refill and returns; it panics at end of file or outside the
inspection modes. -/
def get (cap : PascalFile T) : FileState T → Option (FileState T)
  | .lineInspectionMode (.unknownState b) src flag =>
      refill cap (.lineInspectionMode (.unknownState b) src flag)
  | .lineInspectionMode (.afterReadLine buf pos nm) src flag =>
      if pos + 1 < buf.length then
        some (.lineInspectionMode (.afterReadLine buf (pos + 1) nm) src flag)
      else if nm then
        some (.lineInspectionMode .eofState src flag)
      else
        some (.lineInspectionMode (.unknownState false) src flag)
  | .lineInspectionMode .eofState _ _ => none
  | .blockInspectionMode .unknownState src =>
      refill cap (.blockInspectionMode .unknownState src)
  | .blockInspectionMode (.afterReadBlock buf avail pos cache) src =>
      if cap.size_of_t = 0 then none
      else if pos + cap.size_of_t + cap.size_of_t > avail then
        refill cap (.blockInspectionMode (.afterReadBlock buf avail pos cache) src)
      else
        some (.blockInspectionMode
          (.afterReadBlock buf avail (pos + cap.size_of_t) none) src)
  | .blockInspectionMode .eofState _ => none
  | .undefined => none
  | .generationMode _ _ => none

/-- The body of the Rust `buffer_variable` loop once the buffer state is
settled (a refill never leaves an unknown state, so the loop runs the refill
at most once; an unknown state here would mean another refill round and is
unreachable). -/
def buffer_variable_after (cap : PascalFile T) :
    FileState T → Option (T × FileState T)
  | .lineInspectionMode (.afterReadLine buf pos nm) src flag =>
      (buf[pos]?).map
        (fun u => (u, .lineInspectionMode (.afterReadLine buf pos nm) src flag))
  | .lineInspectionMode (.unknownState _) _ _ => none
  | .lineInspectionMode .eofState _ _ => none
  | .blockInspectionMode (.afterReadBlock buf avail pos cache) src =>
      match cache with
      | some v =>
          some (v, .blockInspectionMode
            (.afterReadBlock buf avail pos (some v)) src)
      | none =>
          if cap.size_of_t = 0 then none
          else if pos + cap.size_of_t ≤ buf.length then
            let v := cap.convert_blob_to_unit
              ((buf.drop pos).take cap.size_of_t)
            some (v, .blockInspectionMode
              (.afterReadBlock buf avail pos (some v)) src)
          else none
  | .blockInspectionMode .unknownState _ => none
  | .blockInspectionMode .eofState _ => none
  | .undefined => none
  | .generationMode _ _ => none

/-- Embeds the Rust `buffer_variable` (peek): refill when unknown, then
return the unit at the lookahead position (caching the decoded unit in block
mode); fatal at end of file and outside the inspection modes. -/
def buffer_variable (cap : PascalFile T) (fs : FileState T) :
    Option (T × FileState T) :=
  match fs with
  | .lineInspectionMode (.unknownState b) src flag =>
      (refill cap (.lineInspectionMode (.unknownState b) src flag)).bind
        (buffer_variable_after cap)
  | .blockInspectionMode .unknownState src =>
      (refill cap (.blockInspectionMode .unknownState src)).bind
        (buffer_variable_after cap)
  | _ => buffer_variable_after cap fs

/-- The body of the Rust `eof` loop once the buffer state is settled. -/
def eof_after (_cap : PascalFile T) :
    FileState T → Option (Bool × FileState T)
  | .lineInspectionMode (.afterReadLine buf pos nm) src flag =>
      some (false, .lineInspectionMode (.afterReadLine buf pos nm) src flag)
  | .lineInspectionMode (.unknownState _) _ _ => none
  | .lineInspectionMode .eofState src flag =>
      some (true, .lineInspectionMode .eofState src flag)
  | .blockInspectionMode (.afterReadBlock buf avail pos cache) src =>
      some (false, .blockInspectionMode
        (.afterReadBlock buf avail pos cache) src)
  | .blockInspectionMode .unknownState _ => none
  | .blockInspectionMode .eofState src =>
      some (true, .blockInspectionMode .eofState src)
  | .generationMode b t => some (true, .generationMode b t)
  | .undefined => none

/-- Embeds the Rust `eof`: refill when unknown; reports `true` in generation
mode; fatal on an undefined (closed) handle. -/
def eof (cap : PascalFile T) (fs : FileState T) :
    Option (Bool × FileState T) :=
  match fs with
  | .lineInspectionMode (.unknownState b) src flag =>
      (refill cap (.lineInspectionMode (.unknownState b) src flag)).bind
        (eof_after cap)
  | .blockInspectionMode .unknownState src =>
      (refill cap (.blockInspectionMode .unknownState src)).bind
        (eof_after cap)
  | _ => eof_after cap fs

/-- The body of the Rust `eoln` loop once the buffer state is settled. -/
def eoln_after (cap : PascalFile T) :
    FileState T → Option (Bool × FileState T)
  | .lineInspectionMode (.afterReadLine buf pos nm) src flag =>
      (buf[pos]?).map
        (fun u => (cap.is_eoln_unit u,
          .lineInspectionMode (.afterReadLine buf pos nm) src flag))
  | .lineInspectionMode (.unknownState _) _ _ => none
  | .lineInspectionMode .eofState _ _ => none
  | .blockInspectionMode _ _ => none
  | .generationMode _ _ => none
  | .undefined => none

/-- Embeds the Rust `eoln`: refill when the line buffer is unknown; fatal at
end of file, on block-mode files and outside the inspection modes. -/
def eoln (cap : PascalFile T) (fs : FileState T) :
    Option (Bool × FileState T) :=
  match fs with
  | .lineInspectionMode (.unknownState b) src flag =>
      (refill cap (.lineInspectionMode (.unknownState b) src flag)).bind
        (eoln_after cap)
  | _ => eoln_after cap fs

/-- Embeds the Rust `break_in`: on a loaded last line go to end of file; on an
interactive handle re-seed a synthetic end-of-line line; otherwise defer the
next refill.  Unknown and end-of-file buffers are left unchanged. -/
def break_in (cap : PascalFile T) (_b : Bool) :
    FileState T → Option (FileState T)
  | .lineInspectionMode (.afterReadLine _ _ nm) src flag =>
      if nm then
        some (.lineInspectionMode .eofState src flag)
      else if flag then
        some (.lineInspectionMode
          (.afterReadLine [cap.eoln_unit] 0 false) src flag)
      else
        some (.lineInspectionMode (.unknownState false) src flag)
  | .lineInspectionMode (.unknownState b) src flag =>
      some (.lineInspectionMode (.unknownState b) src flag)
  | .lineInspectionMode .eofState src flag =>
      some (.lineInspectionMode .eofState src flag)
  | .undefined => none
  | .generationMode _ _ => none
  | .blockInspectionMode _ _ => none

/-- Embeds the Rust `erstat`. -/
def erstat (file : Handle T) : Nat :=
  file.error_state

/-- Modelled from the spec: the byte-window capacity the spec describes,
"the smallest multiple of the unit size that is ≥ a target chunk size,
e.g. 512 bytes" — the least multiple of `s` that is at least
`IDEAL_BUFSIZE`.  Kept separate from `destSize` (the capacity the code
computes) so the two can be compared. -/
def capacity_from_spec (s : Nat) : Nat :=
  s * ((IDEAL_BUFSIZE + s - 1) / s)

/-- Length of the allocated byte window of a loaded block buffer. -/
def blockBufLen : FileState T → Option Nat
  | .blockInspectionMode (.afterReadBlock buf _ _ _) _ => some buf.length
  | _ => none

/-- A file state whose buffer does not need a refill: the primitive-operation
loops run `refill` exactly on the states excluded here, and `refill` always
leaves such a state (so the loops iterate at most once). -/
def Settled : FileState T → Prop
  | .lineInspectionMode (.unknownState _) _ _ => False
  | .blockInspectionMode .unknownState _ => False
  | _ => True

/-- The loaded-line invariant of the claim: a loaded line buffer is
non-empty, ends in a terminator unit, and the position is in bounds.
Non-loaded buffer states satisfy it vacuously. -/
def lineLoadedInvB (cap : PascalFile T) : LineBufferState T → Bool
  | .afterReadLine buf pos _ =>
      (match buf.getLast? with
       | some u => cap.is_eoln_unit u
       | none => false) && decide (pos < buf.length)
  | .unknownState _ => true
  | .eofState => true

/-- The loaded-line invariant lifted to file states. -/
def fileLineInvB (cap : PascalFile T) : FileState T → Bool
  | .lineInspectionMode lb _ _ => lineLoadedInvB cap lb
  | _ => true

/-- Embeds the Rust `close`: replace the file state by the default
(`Undefined`), dropping the owned target; the error code is untouched. -/
def close (file : Handle T) : Handle T :=
  ⟨.undefined, file.error_state⟩

/-! ### Concrete capability instances

Test instances of the capability, playing the role the `impl FromBlob for u8`
etc. play in the Rust source: concrete unit types to evaluate the embedded
operations on. -/

/-- A text-file capability over `Nat` units (character codes), reading an
empty non-interactive source; the terminator unit is `10` (line feed). -/
def capW : PascalFile Nat where
  is_text_file := true
  is_eoln_unit := fun u => u == 10
  eoln_unit := 10
  size_of_t := 1
  open_text_file_for_read := fun _ => .ok ([], false)
  open_binary_file_for_read := fun _ => .error 1
  open_file_for_write := fun _ => .ok ()
  convert_line_string_crlf_to_lf := fun s => s
  convert_line_string_to_units := fun s => s.data.map Char.toNat
  convert_blob_to_unit := fun l => l.headD 0
  convert_unit_to_blob := fun u => [u % 256]

/-- A text capability whose source reports an interactive terminal. -/
def capTerm : PascalFile Nat :=
  { capW with open_text_file_for_read := fun _ => .ok (["x\n"], true) }

/-- A text capability whose opens all fail. -/
def capErr : PascalFile Nat :=
  { capW with
      open_text_file_for_read := fun _ => .error 7
      open_file_for_write := fun _ => .error 9 }

/-- A binary capability whose open fails. -/
def capBinErr : PascalFile Nat :=
  { capW with
      is_text_file := false
      open_binary_file_for_read := fun _ => .error 8 }

/-- A binary capability with unit size `1` over a one-byte source. -/
def c2_cap : PascalFile Nat :=
  { capW with
      is_text_file := false
      open_binary_file_for_read := fun _ => .ok [42] }

/-- A binary capability with unit size `4`; a unit is decoded as the byte
quadruple itself.  Its source is the ten bytes `0, 1, ..., 9`. -/
def c3_cap : PascalFile (List Nat) where
  is_text_file := false
  is_eoln_unit := fun _ => false
  eoln_unit := []
  size_of_t := 4
  open_text_file_for_read := fun _ => .error 1
  open_binary_file_for_read := fun _ => .ok (List.range 10)
  open_file_for_write := fun _ => .error 1
  convert_line_string_crlf_to_lf := fun s => s
  convert_line_string_to_units := fun _ => []
  convert_blob_to_unit := fun l => l
  convert_unit_to_blob := fun u => u

/-- The block-mode handle state produced by `reset` with `c3_cap`. -/
def c3_fs0 : FileState (List Nat) :=
  .blockInspectionMode .unknownState (List.range 10)

/-- The state after the first peek and one advance on `c3_fs0`. -/
def c3_fs1 : Option (FileState (List Nat)) :=
  (buffer_variable c3_cap c3_fs0).bind (fun p => get c3_cap p.2)

/-- The state after a second peek and a second advance on `c3_fs0`. -/
def c3_fs2 : Option (FileState (List Nat)) :=
  c3_fs1.bind (fun fs => (buffer_variable c3_cap fs).bind
    (fun p => get c3_cap p.2))

/-- A fresh non-interactive text handle state over the source `"ab\n"`. -/
def c8_fs0 : FileState Nat :=
  .lineInspectionMode (.unknownState true) ["ab\n"] false

/-- A loaded one-line text state (the line `"a"` followed by a terminator). -/
def c8_loaded : FileState Nat :=
  .lineInspectionMode (.afterReadLine [97, 10] 0 false) [] false

/-! ### Helper lemmas -/

theorem getLast?_append_single {α : Type _} (l : List α) (a : α) :
    (l ++ [a]).getLast? = some a := by
  simp

theorem length_pos_of_getLast?_eq_some {α : Type _} {l : List α} {a : α}
    (h : l.getLast? = some a) : 0 < l.length := by
  cases l with
  | nil => simp at h
  | cons x xs => simp

/-- `blockRefillCore` always leaves a block-mode state whose buffer is either
exhausted or freshly loaded at position `0` with a cleared cache. -/
theorem blockRefillCore_shape (s : Nat) (buf : List Nat) (avail pos : Nat)
    (src : List Nat) :
    (∃ rest, blockRefillCore (T := T) s buf avail pos src
        = .blockInspectionMode .eofState rest)
  ∨ (∃ buf2 avail2 rest, blockRefillCore (T := T) s buf avail pos src
        = .blockInspectionMode (.afterReadBlock buf2 avail2 0 none) rest) := by
  unfold blockRefillCore
  split
  · exact Or.inl ⟨_, rfl⟩
  · exact Or.inr ⟨_, _, _, rfl⟩

/-- A refill of a block-mode state leaves a block-mode state. -/
theorem refill_block_shape (cap : PascalFile T) (bb : BlockBufferState T)
    (src : List Nat) (fs' : FileState T)
    (h : refill cap (.blockInspectionMode bb src) = some fs') :
    ∃ bb2 rest, fs' = .blockInspectionMode bb2 rest ∧ bb2 ≠ .unknownState := by
  cases bb with
  | eofState => simp [refill] at h
  | unknownState =>
      simp only [refill] at h
      split at h
      · simp at h
      · simp only [Option.some.injEq] at h
        rcases blockRefillCore_shape (T := T) cap.size_of_t
            (List.replicate (destSize cap.size_of_t) 0)
            (destSize cap.size_of_t)
            (destSize cap.size_of_t - cap.size_of_t) src with
            ⟨rest, hsh⟩ | ⟨buf2, avail2, rest, hsh⟩
        · exact ⟨_, _, by rw [← h, hsh], by simp⟩
        · exact ⟨_, _, by rw [← h, hsh], by simp⟩
  | afterReadBlock buf avail pos cache =>
      simp only [refill] at h
      split at h
      · simp at h
      · simp only [Option.some.injEq] at h
        rcases blockRefillCore_shape (T := T) cap.size_of_t buf avail pos src
            with ⟨rest, hsh⟩ | ⟨buf2, avail2, rest, hsh⟩
        · exact ⟨_, _, by rw [← h, hsh], by simp⟩
        · exact ⟨_, _, by rw [← h, hsh], by simp⟩

/-- Every state a successful `refill` leaves behind is settled, i.e. the
primitive-operation loops never need to refill twice. -/
theorem refill_settled (cap : PascalFile T) (fs fs' : FileState T)
    (h : refill cap fs = some fs') : Settled fs' := by
  cases fs with
  | undefined => simp [refill] at h
  | generationMode wb wt => simp [refill] at h
  | blockInspectionMode bb src =>
      obtain ⟨bb2, rest, hg, hne⟩ := refill_block_shape cap bb src fs' h
      subst hg
      cases bb2 with
      | unknownState => exact absurd rfl hne
      | afterReadBlock b4 a4 p4 c4 => trivial
      | eofState => trivial
  | lineInspectionMode lb src flag =>
      cases lb with
      | afterReadLine buf pos nm => simp [refill] at h
      | eofState => simp [refill] at h
      | unknownState il =>
          simp only [refill] at h
          split at h
          · simp only [Option.some.injEq] at h
            rw [← h]
            trivial
          · simp only [Option.some.injEq] at h
            rw [← h]
            trivial

/-- On a settled state the primitive-operation wrappers coincide with their
loop bodies. -/
theorem settled_ops (cap : PascalFile T) (fs : FileState T) (h : Settled fs) :
    eof cap fs = eof_after cap fs ∧ eoln cap fs = eoln_after cap fs ∧
    buffer_variable cap fs = buffer_variable_after cap fs := by
  cases fs with
  | undefined => exact ⟨rfl, rfl, rfl⟩
  | generationMode wb wt => exact ⟨rfl, rfl, rfl⟩
  | lineInspectionMode lb src flag =>
      cases lb with
      | unknownState il => exact (h : False).elim
      | afterReadLine buf pos nm => exact ⟨rfl, rfl, rfl⟩
      | eofState => exact ⟨rfl, rfl, rfl⟩
  | blockInspectionMode bb src =>
      cases bb with
      | unknownState => exact (h : False).elim
      | afterReadBlock buf avail pos cache => exact ⟨rfl, rfl, rfl⟩
      | eofState => exact ⟨rfl, rfl, rfl⟩

/-- `eof_after` answers only on settled states, which it returns unchanged. -/
theorem eof_after_state (cap : PascalFile T) (fs : FileState T) (b : Bool)
    (fs' : FileState T) (h : eof_after cap fs = some (b, fs')) :
    fs' = fs ∧ Settled fs := by
  cases fs with
  | undefined => simp [eof_after] at h
  | generationMode wb wt =>
      simp only [eof_after, Option.some.injEq, Prod.mk.injEq] at h
      exact ⟨h.2.symm, trivial⟩
  | lineInspectionMode lb src flag =>
      cases lb with
      | unknownState il => simp [eof_after] at h
      | afterReadLine buf pos nm =>
          simp only [eof_after, Option.some.injEq, Prod.mk.injEq] at h
          exact ⟨h.2.symm, trivial⟩
      | eofState =>
          simp only [eof_after, Option.some.injEq, Prod.mk.injEq] at h
          exact ⟨h.2.symm, trivial⟩
  | blockInspectionMode bb src =>
      cases bb with
      | unknownState => simp [eof_after] at h
      | afterReadBlock buf avail pos cache =>
          simp only [eof_after, Option.some.injEq, Prod.mk.injEq] at h
          exact ⟨h.2.symm, trivial⟩
      | eofState =>
          simp only [eof_after, Option.some.injEq, Prod.mk.injEq] at h
          exact ⟨h.2.symm, trivial⟩

/-- `eoln_after` answers only on loaded line states, returned unchanged. -/
theorem eoln_after_state (cap : PascalFile T) (fs : FileState T) (b : Bool)
    (fs' : FileState T) (h : eoln_after cap fs = some (b, fs')) :
    fs' = fs ∧ Settled fs := by
  cases fs with
  | undefined => simp [eoln_after] at h
  | generationMode wb wt => simp [eoln_after] at h
  | lineInspectionMode lb src flag =>
      cases lb with
      | unknownState il => simp [eoln_after] at h
      | afterReadLine buf pos nm =>
          simp only [eoln_after, Option.map_eq_some', Prod.mk.injEq] at h
          obtain ⟨u, hu, hb, hfs⟩ := h
          exact ⟨hfs.symm, trivial⟩
      | eofState => simp [eoln_after] at h
  | blockInspectionMode bb src => simp [eoln_after] at h

/-! ### Claim theorems -/

/-- Claim C1, counterexample to the claim as stated: on an empty input opened
fresh for non-interactive text reading, `get` called before any end-of-file
check is not fatal — it performs the refill, moves the buffer to its
end-of-file state and returns normally. -/
theorem C1_counterexample :
    get capW (.lineInspectionMode (.unknownState true) [] false)
      = some (.lineInspectionMode .eofState [] false) := by
  decide

/-- Claim C1, amended: for an empty input opened fresh for non-interactive
text reading (the state `reset` seeds, with a source whose first `read_line`
yields nothing), `eof` returns `true` immediately and `buffer_variable`
(peek) before checking end-of-file is fatal; `get` (advance) before checking
end-of-file is not fatal — the first `get` only performs the refill,
transitioning to the end-of-file state, and only a second `get` is fatal. -/
theorem C1_empty_input_behavior (cap : PascalFile T) (flag : Bool) :
    eof cap (.lineInspectionMode (.unknownState true) [] flag)
      = some (true, .lineInspectionMode .eofState [] flag)
  ∧ buffer_variable cap (.lineInspectionMode (.unknownState true) [] flag)
      = none
  ∧ get cap (.lineInspectionMode (.unknownState true) [] flag)
      = some (.lineInspectionMode .eofState [] flag)
  ∧ get cap (.lineInspectionMode (T := T) .eofState [] flag) = none := by
  exact ⟨rfl, rfl, rfl, rfl⟩

set_option maxRecDepth 40000 in
/-- Claim C2, counterexample to the claim as stated: for unit size `1` the
window allocated on the first refill has capacity `513`, not the smallest
multiple of `1` that is `≥ 512` (which is `512`). -/
theorem C2_counterexample :
    destSize 1 = 513 ∧ capacity_from_spec 1 = 512 ∧
    destSize 1 ≠ capacity_from_spec 1 ∧
    (refill c2_cap (.blockInspectionMode .unknownState [42])).bind blockBufLen
      = some 513 := by
  refine ⟨rfl, rfl, by decide, by decide⟩

/-- Claim C2, amended: for every unit size `s ≥ 1` the byte-window capacity
`destSize s` allocated on the first refill is the smallest multiple of `s`
that is strictly greater than the 512-byte target (for `s` not dividing 512
this coincides with the smallest multiple `≥ 512`; for `s` dividing 512 it
is `512 + s`). -/
theorem C2_window_capacity (s : Nat) (h : 1 ≤ s) :
    s ∣ destSize s ∧ IDEAL_BUFSIZE < destSize s ∧
      ∀ m, s ∣ m → IDEAL_BUFSIZE < m → destSize s ≤ m := by
  have hs : 0 < s := h
  refine ⟨dvd_mul_left s (IDEAL_BUFSIZE / s + 1), ?_, ?_⟩
  · exact (Nat.div_lt_iff_lt_mul hs).mp (Nat.lt_succ_self (IDEAL_BUFSIZE / s))
  · intro m hm hlt
    obtain ⟨c, rfl⟩ := hm
    have h1 : IDEAL_BUFSIZE / s < c := by
      rw [Nat.div_lt_iff_lt_mul hs]
      calc IDEAL_BUFSIZE < s * c := hlt
      _ = c * s := Nat.mul_comm s c
    calc destSize s = (IDEAL_BUFSIZE / s + 1) * s := rfl
    _ ≤ c * s := Nat.mul_le_mul_right s h1
    _ = s * c := Nat.mul_comm c s

/-- Claim C2, witness: at unit size `4` the capacity is `516`, a multiple of
`4` strictly above `512` and minimal among such multiples. -/
theorem C2_witness :
    1 ≤ 4 ∧ (4 ∣ destSize 4 ∧ IDEAL_BUFSIZE < destSize 4 ∧
      ∀ m, 4 ∣ m → IDEAL_BUFSIZE < m → destSize 4 ≤ m) :=
  ⟨by decide, C2_window_capacity 4 (by decide)⟩

set_option maxRecDepth 40000 in
/-- Claim C3: over a ten-byte source with unit size `4`, `reset` seeds the
unknown block state; the first peek decodes bytes `[0..4)`; one advance moves
the cursor to byte `4` with ten bytes available (so the next-unit range is
`[4..8)` and the peek decodes those bytes); the second advance needs range
`[8..12)`, which exceeds the ten available bytes, so it refills — the two
leftover bytes are slid to the front, the subsequent read returns zero bytes,
and the block buffer transitions to its end-of-file state, after which `eof`
is true. -/
theorem C3_block_scenario :
    reset c3_cap "f" ⟨.undefined, 0⟩ = ⟨c3_fs0, 0⟩
  ∧ (buffer_variable c3_cap c3_fs0).map Prod.fst
      = some ((List.range 10).take 4)
  ∧ c3_fs1 = some (.blockInspectionMode
      (.afterReadBlock (List.range 10 ++ List.replicate 506 0) 10 4 none) [])
  ∧ (c3_fs1.bind (fun fs => buffer_variable c3_cap fs)).map Prod.fst
      = some (((List.range 10).drop 4).take 4)
  ∧ c3_fs2 = some (.blockInspectionMode .eofState [])
  ∧ c3_fs2.bind (fun fs => (eof c3_cap fs).map Prod.fst) = some true := by
  refine ⟨by decide, by decide, by decide, by decide, by decide, by decide⟩

/-- Claim C6: peek (`buffer_variable`), advance (`get`) and `eoln` are fatal
on a handle in generation (writing) or undefined (closed) state; `eof` is
fatal on an undefined handle but by convention returns `true` on a writing
handle. -/
theorem C6_wrong_mode_usage (cap : PascalFile T) (b : Option T)
    (sink : List Nat) :
    buffer_variable cap (.generationMode b sink) = none
  ∧ buffer_variable cap (.undefined (T := T)) = none
  ∧ get cap (.generationMode b sink) = none
  ∧ get cap (.undefined (T := T)) = none
  ∧ eoln cap (.generationMode b sink) = none
  ∧ eoln cap (.undefined (T := T)) = none
  ∧ eof cap (.generationMode b sink) = some (true, .generationMode b sink)
  ∧ eof cap (.undefined (T := T)) = none := by
  exact ⟨rfl, rfl, rfl, rfl, rfl, rfl, rfl, rfl⟩

/-- Claim C7: `put` is fatal outside generation mode and fatal in generation
mode without a staged unit; with a staged unit it converts it to bytes,
appends them to the sink and clears the staged slot. -/
theorem C7_put_commit (cap : PascalFile T) (u : T) (sink : List Nat)
    (lb : LineBufferState T) (lsrc : List String) (flag : Bool)
    (bb : BlockBufferState T) (bsrc : List Nat) :
    put cap (.generationMode (some u) sink)
      = some (.generationMode none (sink ++ cap.convert_unit_to_blob u))
  ∧ put cap (.generationMode none sink) = none
  ∧ put cap (.undefined (T := T)) = none
  ∧ put cap (.lineInspectionMode lb lsrc flag) = none
  ∧ put cap (.blockInspectionMode bb bsrc) = none := by
  exact ⟨rfl, rfl, rfl, rfl, rfl⟩

/-- Claim C4: whenever the line buffer state is Loaded (`afterReadLine`),
its unit sequence is non-empty, its last unit satisfies `is_eoln_unit`, and
the position index is within bounds; the invariant holds after every
operation that can produce or mutate a Loaded state — line refill, `reset`
(including the interactive seeding), `get`, and the re-seeding of `break_in`
— provided the capability's synthesized terminator unit is itself a
terminator. -/
theorem C4_loaded_invariant (cap : PascalFile T)
    (hc : cap.is_eoln_unit cap.eoln_unit = true) :
    (∀ fs fs', refill cap fs = some fs' → fileLineInvB cap fs' = true)
  ∧ (∀ path file, fileLineInvB cap (reset cap path file).file_state = true)
  ∧ (∀ fs fs', fileLineInvB cap fs = true → get cap fs = some fs' →
        fileLineInvB cap fs' = true)
  ∧ (∀ bflag fs fs', fileLineInvB cap fs = true →
        break_in cap bflag fs = some fs' → fileLineInvB cap fs' = true) := by
  have hrefill : ∀ fs fs', refill cap fs = some fs' →
      fileLineInvB cap fs' = true := by
    intro fs fs' h
    cases fs with
    | undefined => simp [refill] at h
    | generationMode wb wt => simp [refill] at h
    | blockInspectionMode bb src =>
        obtain ⟨bb2, rest, hg, _⟩ := refill_block_shape cap bb src fs' h
        subst hg
        rfl
    | lineInspectionMode lb src flag =>
        cases lb with
        | afterReadLine buf pos nm => simp [refill] at h
        | eofState => simp [refill] at h
        | unknownState il =>
            simp only [refill] at h
            split at h
            · simp only [Option.some.injEq] at h
              rw [← h]
              rfl
            · simp only [Option.some.injEq] at h
              rw [← h]
              rcases hl : (cap.convert_line_string_to_units
                  (cap.convert_line_string_crlf_to_lf
                    ((src.head?).getD ""))).getLast? with _ | u
              · simp [fileLineInvB, lineLoadedInvB, hl,
                  getLast?_append_single, hc]
              · cases hbe : cap.is_eoln_unit u with
                | false =>
                    simp [fileLineInvB, lineLoadedInvB, hl, hbe,
                      getLast?_append_single, hc]
                | true =>
                    simp [fileLineInvB, lineLoadedInvB, hl, hbe,
                      length_pos_of_getLast?_eq_some hl]
  refine ⟨hrefill, ?_, ?_, ?_⟩
  · intro path file
    unfold reset
    split
    · split
      · split
        · simp [fileLineInvB, lineLoadedInvB, hc]
        · rfl
      · rfl
    · split
      · rfl
      · rfl
  · intro fs fs' hinv h
    cases fs with
    | undefined => simp [get] at h
    | generationMode wb wt => simp [get] at h
    | blockInspectionMode bb src =>
        cases bb with
        | eofState => simp [get] at h
        | unknownState =>
            have h' : refill cap (.blockInspectionMode .unknownState src)
                = some fs' := h
            exact hrefill _ _ h'
        | afterReadBlock buf avail pos cache =>
            simp only [get] at h
            split at h
            · simp at h
            · split at h
              · exact hrefill _ _ h
              · simp only [Option.some.injEq] at h
                rw [← h]
                rfl
    | lineInspectionMode lb src flag =>
        cases lb with
        | eofState => simp [get] at h
        | unknownState il =>
            have h' : refill cap
                (.lineInspectionMode (.unknownState il) src flag)
                = some fs' := h
            exact hrefill _ _ h'
        | afterReadLine buf pos nm =>
            simp only [get] at h
            split at h
            · rename_i hlt
              simp only [Option.some.injEq] at h
              rw [← h]
              simp only [fileLineInvB, lineLoadedInvB,
                Bool.and_eq_true] at hinv ⊢
              exact ⟨hinv.1, decide_eq_true hlt⟩
            · split at h
              · simp only [Option.some.injEq] at h
                rw [← h]
                rfl
              · simp only [Option.some.injEq] at h
                rw [← h]
                rfl
  · intro bflag fs fs' hinv h
    cases fs with
    | undefined => simp [break_in] at h
    | generationMode wb wt => simp [break_in] at h
    | blockInspectionMode bb src => simp [break_in] at h
    | lineInspectionMode lb src flag =>
        cases lb with
        | unknownState il =>
            simp only [break_in, Option.some.injEq] at h
            rw [← h]
            rfl
        | eofState =>
            simp only [break_in, Option.some.injEq] at h
            rw [← h]
            rfl
        | afterReadLine buf pos nm =>
            simp only [break_in] at h
            split at h
            · simp only [Option.some.injEq] at h
              rw [← h]
              rfl
            · split at h
              · simp only [Option.some.injEq] at h
                rw [← h]
                simp [fileLineInvB, lineLoadedInvB, hc]
              · simp only [Option.some.injEq] at h
                rw [← h]
                rfl

/-- Claim C4, witness: with the concrete capability `capW` (whose terminator
unit is a terminator) the invariant holds on the state `reset` seeds and on a
refilled state. -/
theorem C4_witness :
    fileLineInvB capW (reset capW "p" ⟨.undefined, 0⟩).file_state = true
  ∧ fileLineInvB capW
      (.lineInspectionMode (.afterReadLine [10] 0 true) [] false) = true := by
  refine ⟨?_, ?_⟩
  · exact (C4_loaded_invariant capW (by decide)).2.1 "p" ⟨.undefined, 0⟩
  · exact (C4_loaded_invariant capW (by decide)).1
      (.lineInspectionMode (.unknownState false) [] false) _ (by decide)

/-- Claim C5: every open failure in `reset` or `rewrite` leaves the handle
undefined (closed) with the capability's error code recorded and retrievable
via `erstat`; every successful open records error code `0` and moves the
handle into the matching reading or writing mode. -/
theorem C5_open_result_recording (cap : PascalFile T) (path : String)
    (file : Handle T) :
    (∀ e, cap.is_text_file = true →
        cap.open_text_file_for_read path = .error e →
        reset cap path file = ⟨.undefined, e⟩ ∧
        erstat (reset cap path file) = e)
  ∧ (∀ src term, cap.is_text_file = true →
        cap.open_text_file_for_read path = .ok (src, term) →
        erstat (reset cap path file) = 0 ∧
        (reset cap path file).file_state =
          (if term then
            .lineInspectionMode
              (.afterReadLine [cap.eoln_unit] 0 false) src true
           else .lineInspectionMode (.unknownState true) src false))
  ∧ (∀ e, cap.is_text_file = false →
        cap.open_binary_file_for_read path = .error e →
        reset cap path file = ⟨.undefined, e⟩ ∧
        erstat (reset cap path file) = e)
  ∧ (∀ src, cap.is_text_file = false →
        cap.open_binary_file_for_read path = .ok src →
        erstat (reset cap path file) = 0 ∧
        (reset cap path file).file_state
          = .blockInspectionMode .unknownState src)
  ∧ (∀ e, cap.open_file_for_write path = .error e →
        rewrite cap path file = ⟨.undefined, e⟩ ∧
        erstat (rewrite cap path file) = e)
  ∧ (∀ u, cap.open_file_for_write path = .ok u →
        erstat (rewrite cap path file) = 0 ∧
        (rewrite cap path file).file_state = .generationMode none []) := by
  refine ⟨?_, ?_, ?_, ?_, ?_, ?_⟩
  · intro e ht he
    exact ⟨by simp [reset, ht, he], by simp [reset, erstat, ht, he]⟩
  · intro src term ht ho
    cases term <;> simp [reset, erstat, ht, ho]
  · intro e ht he
    exact ⟨by simp [reset, ht, he], by simp [reset, erstat, ht, he]⟩
  · intro src ht ho
    simp [reset, erstat, ht, ho]
  · intro e he
    exact ⟨by simp [rewrite, he], by simp [rewrite, erstat, he]⟩
  · intro u ho
    simp [rewrite, erstat, ho]

/-- Claim C5, witness: concrete opens covering failing and succeeding text,
binary and write opens, including an interactive text open. -/
theorem C5_witness :
    (reset capErr "p" ⟨.undefined, 0⟩ = ⟨.undefined, 7⟩ ∧
      erstat (reset capErr "p" ⟨.undefined, 0⟩) = 7)
  ∧ erstat (reset capW "p" ⟨.undefined, 0⟩) = 0
  ∧ (reset capBinErr "p" ⟨.undefined, 0⟩ = ⟨.undefined, 8⟩ ∧
      erstat (reset capBinErr "p" ⟨.undefined, 0⟩) = 8)
  ∧ (rewrite capErr "p" ⟨.undefined, 0⟩ = ⟨.undefined, 9⟩ ∧
      erstat (rewrite capErr "p" ⟨.undefined, 0⟩) = 9)
  ∧ erstat (rewrite capW "p" ⟨.undefined, 0⟩) = 0
  ∧ (reset capTerm "p" ⟨.undefined, 0⟩).file_state
      = .lineInspectionMode (.afterReadLine [10] 0 false) ["x\n"] true := by
  refine ⟨?_, ?_, ?_, ?_, ?_, ?_⟩
  · exact (C5_open_result_recording capErr "p" ⟨.undefined, 0⟩).1 7 rfl rfl
  · exact ((C5_open_result_recording capW "p" ⟨.undefined, 0⟩).2.1
      [] false rfl rfl).1
  · exact (C5_open_result_recording capBinErr "p"
      ⟨.undefined, 0⟩).2.2.1 8 rfl rfl
  · exact (C5_open_result_recording capErr "p"
      ⟨.undefined, 0⟩).2.2.2.2.1 9 rfl
  · exact ((C5_open_result_recording capW "p"
      ⟨.undefined, 0⟩).2.2.2.2.2 () rfl).1
  · exact ((C5_open_result_recording capTerm "p"
      ⟨.undefined, 0⟩).2.1 ["x\n"] true rfl rfl).2

/-- Claim C9: once the last real line of a terminator-ending non-interactive
text file has been consumed (advancing past its final terminator yields the
deferred-refill state over an exhausted source), end-of-file is still false:
the next refill reads nothing and, this not being the first refill, yields a
synthetic line of a single terminator unit with the no-more-lines flag set;
only advancing past that synthetic terminator reaches the end-of-file state,
where `eof` is true. -/
theorem C9_synthetic_final_line (cap : PascalFile T)
    (hconv : cap.convert_line_string_to_units
      (cap.convert_line_string_crlf_to_lf "") = [])
    (flag : Bool) :
    (∀ (buf : List T) (pos : Nat), pos + 1 = buf.length →
        get cap (.lineInspectionMode (.afterReadLine buf pos false) [] flag)
          = some (.lineInspectionMode (.unknownState false) [] flag))
  ∧ refill cap (.lineInspectionMode (.unknownState false) [] flag)
      = some (.lineInspectionMode
          (.afterReadLine [cap.eoln_unit] 0 true) [] flag)
  ∧ eof cap (.lineInspectionMode (.unknownState false) [] flag)
      = some (false, .lineInspectionMode
          (.afterReadLine [cap.eoln_unit] 0 true) [] flag)
  ∧ get cap (.lineInspectionMode
        (.afterReadLine [cap.eoln_unit] 0 true) [] flag)
      = some (.lineInspectionMode .eofState [] flag)
  ∧ eof cap (.lineInspectionMode (T := T) .eofState [] flag)
      = some (true, .lineInspectionMode .eofState [] flag) := by
  have h2 : refill cap (.lineInspectionMode (.unknownState false) [] flag)
      = some (.lineInspectionMode
          (.afterReadLine [cap.eoln_unit] 0 true) [] flag) := by
    simp [refill, hconv]
  refine ⟨?_, h2, ?_, rfl, rfl⟩
  · intro buf pos h
    have hlt : ¬ (pos + 1 < buf.length) := by omega
    simp [get, hlt]
  · show (refill cap (.lineInspectionMode (.unknownState false) [] flag)).bind
      (eof_after cap) = _
    rw [h2]
    rfl

/-- Claim C9, witness: the concrete capability `capW` satisfies the
empty-line conversion law, and the scenario runs as the theorem states on a
concrete consumed last line. -/
theorem C9_witness :
    capW.convert_line_string_to_units
      (capW.convert_line_string_crlf_to_lf "") = []
  ∧ get capW (.lineInspectionMode (.afterReadLine [97, 10] 1 false) [] false)
      = some (.lineInspectionMode (.unknownState false) [] false)
  ∧ refill capW (.lineInspectionMode (.unknownState false) [] false)
      = some (.lineInspectionMode (.afterReadLine [10] 0 true) [] false) := by
  refine ⟨rfl, ?_, ?_⟩
  · exact (C9_synthetic_final_line capW rfl false).1 [97, 10] 1 rfl
  · exact (C9_synthetic_final_line capW rfl false).2.1

/-- Claim C10: `close` resets the file state to undefined (closed) and leaves
the last-error code unchanged, so `erstat` returns the same value before and
after `close`. -/
theorem C10_close_frame (file : Handle T) :
    (close file).file_state = FileState.undefined
  ∧ erstat (close file) = erstat file := by
  exact ⟨rfl, rfl⟩

/-- Claim C8, counterexample to the claim as stated: an extra `eof` call can
change subsequently observable behaviour.  On a fresh non-interactive handle
over the source `"ab\n"`, advance-then-peek yields the first unit `97`
(`get` on an unmaterialized buffer only performs the refill), while
`eof`-then-advance-then-peek yields the second unit `98` (the `eof` call
materialized the buffer, so the advance really advanced). -/
theorem C8_counterexample :
    (get capW c8_fs0).bind (fun fs => (buffer_variable capW fs).map Prod.fst)
      = some 97
  ∧ ((eof capW c8_fs0).bind (fun p => get capW p.2)).bind
      (fun fs => (buffer_variable capW fs).map Prod.fst) = some 98
  ∧ (97 : Nat) ≠ 98 := by
  refine ⟨by decide, by decide, by decide⟩

/-- Claim C8, amended: repeated `eof` or `eoln` calls without an intervening
advance return the same result each time and leave a state with the same
peeked unit and the same future `eof`/`eoln`/peek results as if the extra
calls had not happened; however such a call can materialize a pending refill,
after which an advance (`get`) behaves differently than it would have on the
unmaterialized handle, because `get` on an unmaterialized buffer only
performs the refill. -/
theorem C8_idempotence (cap : PascalFile T) (fs fs' : FileState T)
    (b : Bool) :
    (eof cap fs = some (b, fs') →
        eof cap fs' = some (b, fs')
      ∧ eoln cap fs' = eoln cap fs
      ∧ buffer_variable cap fs' = buffer_variable cap fs)
  ∧ (eoln cap fs = some (b, fs') →
        eoln cap fs' = some (b, fs')
      ∧ eof cap fs' = eof cap fs
      ∧ buffer_variable cap fs' = buffer_variable cap fs) := by
  cases fs with
  | undefined =>
      exact ⟨fun h => by simp [eof, eof_after] at h,
             fun h => by simp [eoln, eoln_after] at h⟩
  | generationMode wb wt =>
      constructor
      · intro h
        obtain ⟨hfs, hs⟩ := eof_after_state cap (.generationMode wb wt) b fs' h
        subst hfs
        exact ⟨h, rfl, rfl⟩
      · intro h
        simp [eoln, eoln_after] at h
  | lineInspectionMode lb src flag =>
      cases lb with
      | afterReadLine buf pos nm =>
          constructor
          · intro h
            obtain ⟨hfs, hs⟩ := eof_after_state cap
              (.lineInspectionMode (.afterReadLine buf pos nm) src flag)
              b fs' h
            subst hfs
            exact ⟨h, rfl, rfl⟩
          · intro h
            obtain ⟨hfs, hs⟩ := eoln_after_state cap
              (.lineInspectionMode (.afterReadLine buf pos nm) src flag)
              b fs' h
            subst hfs
            exact ⟨h, rfl, rfl⟩
      | eofState =>
          constructor
          · intro h
            obtain ⟨hfs, hs⟩ := eof_after_state cap
              (.lineInspectionMode .eofState src flag) b fs' h
            subst hfs
            exact ⟨h, rfl, rfl⟩
          · intro h
            simp [eoln, eoln_after] at h
      | unknownState il =>
          constructor
          · intro h
            have hdef : eof cap (.lineInspectionMode (.unknownState il) src flag)
                = (refill cap
                    (.lineInspectionMode (.unknownState il) src flag)).bind
                  (eof_after cap) := rfl
            rw [hdef] at h
            cases hr : refill cap
                (.lineInspectionMode (.unknownState il) src flag) with
            | none => rw [hr] at h; simp at h
            | some g =>
                rw [hr] at h
                obtain ⟨hfs, hs⟩ := eof_after_state cap g b fs' h
                subst hfs
                obtain ⟨h1, h2, h3⟩ := settled_ops cap fs' hs
                refine ⟨h1.trans h, ?_, ?_⟩
                · have hd2 : eoln cap
                      (.lineInspectionMode (.unknownState il) src flag)
                      = (refill cap
                          (.lineInspectionMode (.unknownState il) src flag)).bind
                        (eoln_after cap) := rfl
                  rw [hd2, hr]
                  exact h2
                · have hd3 : buffer_variable cap
                      (.lineInspectionMode (.unknownState il) src flag)
                      = (refill cap
                          (.lineInspectionMode (.unknownState il) src flag)).bind
                        (buffer_variable_after cap) := rfl
                  rw [hd3, hr]
                  exact h3
          · intro h
            have hdef : eoln cap (.lineInspectionMode (.unknownState il) src flag)
                = (refill cap
                    (.lineInspectionMode (.unknownState il) src flag)).bind
                  (eoln_after cap) := rfl
            rw [hdef] at h
            cases hr : refill cap
                (.lineInspectionMode (.unknownState il) src flag) with
            | none => rw [hr] at h; simp at h
            | some g =>
                rw [hr] at h
                obtain ⟨hfs, hs⟩ := eoln_after_state cap g b fs' h
                subst hfs
                obtain ⟨h1, h2, h3⟩ := settled_ops cap fs' hs
                refine ⟨h2.trans h, ?_, ?_⟩
                · have hd2 : eof cap
                      (.lineInspectionMode (.unknownState il) src flag)
                      = (refill cap
                          (.lineInspectionMode (.unknownState il) src flag)).bind
                        (eof_after cap) := rfl
                  rw [hd2, hr]
                  exact h1
                · have hd3 : buffer_variable cap
                      (.lineInspectionMode (.unknownState il) src flag)
                      = (refill cap
                          (.lineInspectionMode (.unknownState il) src flag)).bind
                        (buffer_variable_after cap) := rfl
                  rw [hd3, hr]
                  exact h3
  | blockInspectionMode bb src =>
      cases bb with
      | afterReadBlock buf avail pos cache =>
          constructor
          · intro h
            obtain ⟨hfs, hs⟩ := eof_after_state cap
              (.blockInspectionMode (.afterReadBlock buf avail pos cache) src)
              b fs' h
            subst hfs
            exact ⟨h, rfl, rfl⟩
          · intro h
            simp [eoln, eoln_after] at h
      | eofState =>
          constructor
          · intro h
            obtain ⟨hfs, hs⟩ := eof_after_state cap
              (.blockInspectionMode .eofState src) b fs' h
            subst hfs
            exact ⟨h, rfl, rfl⟩
          · intro h
            simp [eoln, eoln_after] at h
      | unknownState =>
          constructor
          · intro h
            have hdef : eof cap (.blockInspectionMode .unknownState src)
                = (refill cap (.blockInspectionMode .unknownState src)).bind
                  (eof_after cap) := rfl
            rw [hdef] at h
            cases hr : refill cap (.blockInspectionMode .unknownState src) with
            | none => rw [hr] at h; simp at h
            | some g =>
                rw [hr] at h
                obtain ⟨hfs, hs⟩ := eof_after_state cap g b fs' h
                subst hfs
                obtain ⟨h1, h2, h3⟩ := settled_ops cap fs' hs
                refine ⟨h1.trans h, ?_, ?_⟩
                · obtain ⟨bb2, rest, hg, hne⟩ :=
                    refill_block_shape cap .unknownState src fs' hr
                  subst hg
                  rfl
                · have hd3 : buffer_variable cap
                      (.blockInspectionMode .unknownState src)
                      = (refill cap (.blockInspectionMode .unknownState src)).bind
                        (buffer_variable_after cap) := rfl
                  rw [hd3, hr]
                  exact h3
          · intro h
            simp [eoln, eoln_after] at h

/-- Claim C8, witness: a second `eof` on a loaded line state returns the same
answer and the same state, and peek and `eoln` are unaffected. -/
theorem C8_witness :
    eof capW c8_loaded = some (false, c8_loaded)
  ∧ eoln capW c8_loaded = eoln capW c8_loaded
  ∧ buffer_variable capW c8_loaded = buffer_variable capW c8_loaded :=
  (C8_idempotence capW c8_loaded c8_loaded false).1 (by decide)

end Pascal
